import Mathlib

/-!
Verification development for `src/back-end/www/base_learner.py`.

The file shallowly embeds the `BaseLearner` class: checkpoint save/load
(including the `"module."`-prefix fallback of `load`), the unified `log`
method, the augmentation-pipeline builder `get_transform`, the logger
factory `create_logger`, and the `__init__` hardware-acceleration check.

Modelling conventions:
* a PyTorch `state_dict` is an ordered association list from parameter
  names (strings) to parameter values (modelled as integers);
* the file system is a partial map from paths to serialized state dicts;
* `self.log(msg, lv)` calls are recorded as a list of `LogCall` values in
  the order they happen, and `BaseLearner.log` renders one call into its
  console/logger effects;
* Python string `replace("module.", "")` is embedded as `stripModuleAux`
  on character lists (left-to-right removal of every non-overlapping
  occurrence), and Python (Ordered)dict insertion as `odInsert`.
-/

/-- The character list of the literal `"module."` used by `BaseLearner.load`. -/
def modulePat : List Char := ['m', 'o', 'd', 'u', 'l', 'e', '.']

/-- `k.replace("module.", "")` on character lists: remove every
non-overlapping occurrence of `"module."`, scanning left to right. -/
def stripModuleAux : List Char → List Char
  | 'm' :: 'o' :: 'd' :: 'u' :: 'l' :: 'e' :: '.' :: rest => stripModuleAux rest
  | c :: cs => c :: stripModuleAux cs
  | [] => []

/-- `k.replace("module.", "")` on strings. -/
def stripModuleKey (s : String) : String := ⟨stripModuleAux s.data⟩

/-- Whether `pat` occurs as a contiguous sublist of `s` (Python `pat in s`). -/
def occursIn (pat : List Char) : List Char → Bool
  | [] => pat.isPrefixOf []
  | c :: cs => pat.isPrefixOf (c :: cs) || occursIn pat cs

/-- The alternative key correction C10 contrasts with: remove `"module."`
only when it is a leading prefix of the key. -/
def stripLeadingModule (s : List Char) : List Char :=
  if modulePat.isPrefixOf s then s.drop modulePat.length else s

/-- A `state_dict`: ordered mapping from parameter names to values. -/
abbrev StateDict := List (String × Int)

/-- The file system: paths to serialized state dicts (`torch.save` output). -/
abbrev FS := String → Option StateDict

/-- The key sequence of a state dict. -/
def sdKeys (sd : StateDict) : List String := sd.map Prod.fst

/-- A model: its parameters, keyed by name. -/
structure Model where
  params : StateDict
deriving DecidableEq, Repr

/-- A model object as passed to `BaseLearner.save`: either a plain module or
an `nn.DataParallel` wrapper exposing the inner model as `.module`. -/
inductive PyModel where
  | plain (m : Model)
  | dataParallel (m : Model)
deriving DecidableEq, Repr

/-- The `try: model.module.state_dict() except AttributeError:
model.state_dict()` logic of `BaseLearner.save`. -/
def PyModel.stateDictForSave : PyModel → StateDict
  | .dataParallel m => m.params
  | .plain m => m.params

/-- Strict key matching of `torch.nn.Module.load_state_dict`: no missing
keys and no unexpected keys. -/
def sameKeys (a b : List String) : Bool :=
  a.all (fun k => b.contains k) && b.all (fun k => a.contains k)

/-- `model.load_state_dict(sd)` (strict): succeeds iff the key sets agree,
in which case every parameter takes the checkpoint value for its name. -/
def Model.load_state_dict (m : Model) (sd : StateDict) : Option Model :=
  if sameKeys (sdKeys m.params) (sdKeys sd) then
    some ⟨m.params.map (fun p => (p.1, ((sd.lookup p.1).getD p.2)))⟩
  else none

/-- Python dict insertion `d[k] = v`: overwrite in place if the key is
present (keeping its position), else append the new pair. -/
def odInsert (d : StateDict) (k : String) (v : Int) : StateDict :=
  if (d.lookup k).isSome then d.map (fun p => if p.1 = k then (k, v) else p)
  else d ++ [(k, v)]

/-- The fallback loop of `BaseLearner.load`:
`for k, v in state_dict.items(): new_state_dict[k.replace("module.", "")] = v`. -/
def newStateDict (sd : StateDict) : StateDict :=
  sd.foldl (fun acc p => odInsert acc (stripModuleKey p.1) p.2) []

/-- One `self.log(msg, lv)` call (lv defaults to "i" at every call site of
`save`/`load`). -/
structure LogCall where
  msg : String
  lv : String
deriving DecidableEq, Repr

/-- Result of `BaseLearner.save`: the updated file system and the log calls. -/
structure SaveResult where
  fs : FS
  logs : List LogCall

/-- Result of `BaseLearner.load`: `Except.error` means an exception escaped
the method; `Except.ok` carries the (possibly updated) model argument. -/
structure LoadResult where
  outcome : Except Unit (Option Model)
  logs : List LogCall

/-- `BaseLearner.save(model, out_path)`. -/
def BaseLearner.save (model : Option PyModel) (out_path : Option String) (fs : FS) :
    SaveResult :=
  match model, out_path with
  | some m, some p =>
    { fs := fun q => if q = p then some m.stateDictForSave else fs q
      logs := [⟨"Save model weights to " ++ p, "i"⟩] }
  | _, _ => { fs := fs, logs := [] }

/-- `BaseLearner.load(model, in_path)`. A missing file makes `torch.load`
raise; the bare `except:` catches anything from the `try` block, logs two
lines, rebuilds the state dict with `"module."` removed from every key and
retries; a second failure propagates. -/
def BaseLearner.load (model : Option Model) (in_path : Option String) (fs : FS) :
    LoadResult :=
  match model, in_path with
  | some m, some p =>
    let l1 : LogCall := ⟨"Load model weights from " ++ p, "i"⟩
    let fallbackLogs : List LogCall :=
      [⟨"Weights were from nn.DataParallel...", "i"⟩,
       ⟨"Remove \x27module.\x27 prefix from state_dict keys...", "i"⟩]
    match fs p with
    | none => { outcome := Except.error (), logs := l1 :: fallbackLogs }
    | some sd =>
      match m.load_state_dict sd with
      | some m2 => { outcome := Except.ok (some m2), logs := [l1] }
      | none =>
        match m.load_state_dict (newStateDict sd) with
        | some m2 => { outcome := Except.ok (some m2), logs := l1 :: fallbackLogs }
        | none => { outcome := Except.error (), logs := l1 :: fallbackLogs }
  | _, _ => { outcome := Except.ok model, logs := [] }

/-- Severity levels of the logging library. -/
inductive LogLevel where
  | info
  | warning
  | error
deriving DecidableEq, Repr

/-- Effect of one `BaseLearner.log(msg, lv)` call: the console line it
prints, and the records routed to the logger when one is configured. -/
structure LogEffect where
  console : List String
  records : List (LogLevel × String)
deriving DecidableEq, Repr

/-- `BaseLearner.log`: always print; route to the logger at the matching
severity only if a logger has been configured. -/
def BaseLearner.log (logger : Option String) (msg : String) (lv : String) : LogEffect :=
  { console := [msg]
    records :=
      match logger with
      | none => []
      | some _ =>
        if lv = "i" then [(LogLevel.info, msg)]
        else if lv = "w" then [(LogLevel.warning, msg)]
        else if lv = "e" then [(LogLevel.error, msg)]
        else [] }

/-- Render a sequence of `self.log` calls into the logger records they emit. -/
def renderLogs (logger : Option String) (calls : List LogCall) : List (LogLevel × String) :=
  calls.foldr (fun c acc => (BaseLearner.log logger c.msg c.lv).records ++ acc) []

/-- One step of an augmentation pipeline, mirroring the constructor calls in
`BaseLearner.get_transform` (arguments in source order; probabilities,
scales, bounds as rationals). -/
inductive Transform where
  | colorJitterBCSH (brightness contrast saturation : ℚ) (hue : ℚ × ℚ)
  | colorJitterBC (brightness contrast : ℚ)
  | randomResizedCrop (size : Nat) (scale : ℚ × ℚ) (aspect : ℚ × ℚ)
  | randomPerspective (anglex angley anglez shear : ℚ)
  | randomHorizontalFlip (p : ℚ)
  | randomErasing (p : ℚ) (scale : ℚ × ℚ) (aspect : ℚ × ℚ) (value : String)
  | resize (size : Nat)
  | normalize (mean std : List ℚ)
deriving DecidableEq, Repr

/-- `mean = (127.5, 127.5, 127.5)` for mode `"rgb"`. -/
def rgbMean : List ℚ := [255 / 2, 255 / 2, 255 / 2]

/-- `std = (127.5, 127.5, 127.5)` for mode `"rgb"`. -/
def rgbStd : List ℚ := [255 / 2, 255 / 2, 255 / 2]

/-- `mean = (127.5, 127.5)` for mode `"flow"`. -/
def flowMean : List ℚ := [255 / 2, 255 / 2]

/-- `std = (127.5, 127.5)` for mode `"flow"`. -/
def flowStd : List ℚ := [255 / 2, 255 / 2]

/-- `BaseLearner.get_transform(mode, phase=None)`; `image_size` stands for
the `self.image_size` attribute a subclass must provide. -/
def BaseLearner.get_transform (image_size : Nat) (mode : String) (phase : Option String) :
    Option (List Transform) :=
  let ms : Option (List ℚ × List ℚ) :=
    if mode = "rgb" then some (rgbMean, rgbStd)
    else if mode = "flow" then some (flowMean, flowStd)
    else none
  match ms with
  | none => none
  | some (mean, std) =>
    let nm := Transform.normalize mean std
    if phase = some "train" then
      let cj :=
        if mode = "rgb" then
          Transform.colorJitterBCSH (3 / 10) (3 / 10) (3 / 10) (-(1 / 10), 1 / 10)
        else
          Transform.colorJitterBC (3 / 10) (3 / 10)
      let rrc := Transform.randomResizedCrop image_size (9 / 10, 1) (3 / 4, 4 / 3)
      let rp := Transform.randomPerspective 3 3 3 3
      let rhf := Transform.randomHorizontalFlip (1 / 2)
      let re := Transform.randomErasing (1 / 2) (2 / 1000, 8 / 1000) (3 / 10, 33 / 10) "random"
      some [cj, rrc, rp, rhf, re, re, nm]
    else
      some [Transform.resize image_size, nm]

/-- A handler as configured by `create_logger`: a rotating file handler on
the given path with its size threshold, backup count and format template. -/
structure Handler where
  path : String
  maxBytes : Nat
  backupCount : Nat
  formatter : String
deriving DecidableEq, Repr

/-- The process-wide logger registry, keyed by logger name (here: the path). -/
abbrev Registry := String → List Handler

/-- The mutable per-instance state of a `BaseLearner`. -/
structure LearnerState where
  logger : Option String
  use_cuda : Bool
deriving DecidableEq, Repr

/-- A Python value as far as truthiness is concerned: the source tests
`if torch.cuda.is_available:`, i.e. the truthiness of the bound method
object itself, not of its call result. -/
inductive PyObj where
  | boundMethod (f : Unit → Bool)
  | pyBool (b : Bool)
  | pyNone

/-- Python truthiness: function/method objects are always truthy. -/
def pyTruthy : PyObj → Bool
  | .boundMethod _ => true
  | .pyBool b => b
  | .pyNone => false

/-- `BaseLearner.__init__`: `self.logger = None`, then set `use_cuda` by
testing the truthiness of the method object `torch.cuda.is_available`. -/
def BaseLearner.init (torch_cuda_is_available : Unit → Bool) : LearnerState :=
  { logger := none
    use_cuda := if pyTruthy (PyObj.boundMethod torch_cuda_is_available) then true else false }

/-- `for hdlr in logger.handlers[:]: logger.removeHandler(hdlr)` — remove
each element of a snapshot of the handler list from the current list. -/
def removeOldHandlers (snapshot current : List Handler) : List Handler :=
  snapshot.foldl (fun cur h => cur.erase h) current

/-- `BaseLearner.create_logger(log_path=None)`: configure a rotating file
handler, clear the handlers of the logger registered under the path, attach
the new handler, and remember the logger on the instance. -/
def BaseLearner.create_logger (st : LearnerState) (log_path : Option String) (reg : Registry) :
    LearnerState × Registry :=
  match log_path with
  | none => (st, reg)
  | some p =>
    let handler : Handler :=
      { path := p, maxBytes := 100000000, backupCount := 200
        formatter := "[%(asctime)s] %(levelname)s: %(message)s" }
    let cleared := removeOldHandlers (reg p) (reg p)
    ({ st with logger := some p }, fun q => if q = p then cleared ++ [handler] else reg q)

/-! ### Helper lemmas about the `"module."` key correction -/

lemma isPrefixOf_eq_true_iff (s : List Char) :
    modulePat.isPrefixOf s = true ↔ ∃ t, s = 'm' :: 'o' :: 'd' :: 'u' :: 'l' :: 'e' :: '.' :: t := by
  constructor
  · intro h
    rw [ List.isPrefixOf_iff_prefix] at h
    obtain ⟨t, ht⟩ := h
    exact ⟨t, ht.symm⟩
  · rintro ⟨t, rfl⟩
    rw [ List.isPrefixOf_iff_prefix]
    exact ⟨t, rfl⟩

lemma stripModuleAux_module (t : List Char) :
    stripModuleAux ('m' :: 'o' :: 'd' :: 'u' :: 'l' :: 'e' :: '.' :: t) = stripModuleAux t := rfl

lemma stripModuleAux_cons_of_not (c : Char) (cs : List Char)
    (h : modulePat.isPrefixOf (c :: cs) = false) :
    stripModuleAux (c :: cs) = c :: stripModuleAux cs := by
  apply stripModuleAux.eq_2
  rintro rest rfl rfl
  rw [show modulePat.isPrefixOf ('m' :: 'o' :: 'd' :: 'u' :: 'l' :: 'e' :: '.' :: rest) = true
      from (isPrefixOf_eq_true_iff _).mpr ⟨rest, rfl⟩] at h
  simp at h

lemma stripModuleAux_length_le (s : List Char) : (stripModuleAux s).length ≤ s.length := by
  induction s using stripModuleAux.induct with
  | case1 rest ih => simpa [stripModuleAux_module] using le_trans ih (by omega)
  | case2 c cs hside ih =>
      rw [stripModuleAux.eq_2 c cs hside]
      simpa using ih
  | case3 => simp [stripModuleAux]

lemma occursIn_nil : occursIn modulePat [] = false := rfl

lemma occursIn_cons (c : Char) (cs : List Char) :
    occursIn modulePat (c :: cs) = (modulePat.isPrefixOf (c :: cs) || occursIn modulePat cs) := rfl

lemma stripModuleAux_length_lt (s : List Char) (h : occursIn modulePat s = true) :
    (stripModuleAux s).length + 7 ≤ s.length := by
  induction s using stripModuleAux.induct with
  | case1 rest ih =>
      rw [stripModuleAux_module]
      have := stripModuleAux_length_le rest
      simp only [List.length_cons]
      omega
  | case2 c cs hside ih =>
      have hpre : modulePat.isPrefixOf (c :: cs) = false := by
        cases hp : modulePat.isPrefixOf (c :: cs) with
        | false => rfl
        | true =>
            obtain ⟨t, ht⟩ := (isPrefixOf_eq_true_iff _).mp hp
            rw [List.cons.injEq] at ht
            exact absurd ht (by rintro ⟨rfl, rfl⟩; exact hside t rfl rfl)
      rw [occursIn_cons, hpre, Bool.false_or] at h
      rw [stripModuleAux.eq_2 c cs hside]
      have := ih h
      simp only [List.length_cons]
      omega
  | case3 => simp [occursIn_nil] at h

lemma stripModuleAux_of_not_occurs (s : List Char) (h : occursIn modulePat s = false) :
    stripModuleAux s = s := by
  induction s using stripModuleAux.induct with
  | case1 rest ih =>
      rw [occursIn_cons] at h
      rw [(isPrefixOf_eq_true_iff _).mpr ⟨rest, rfl⟩] at h
      simp at h
  | case2 c cs hside ih =>
      rw [occursIn_cons, Bool.or_eq_false_iff] at h
      rw [stripModuleAux.eq_2 c cs hside, ih h.2]
  | case3 => rfl

lemma isPrefixOf_cons_of_ne_m (c : Char) (cs : List Char) (h : c ≠ 'm') :
    modulePat.isPrefixOf (c :: cs) = false := by
  cases hp : modulePat.isPrefixOf (c :: cs) with
  | false => rfl
  | true =>
      obtain ⟨t, ht⟩ := (isPrefixOf_eq_true_iff _).mp hp
      rw [List.cons.injEq] at ht
      exact absurd ht.1 h

lemma occursIn_shift (t : List Char) :
    occursIn modulePat ('o' :: 'd' :: 'u' :: 'l' :: 'e' :: '.' :: t) = occursIn modulePat t := by
  rw [occursIn_cons, occursIn_cons, occursIn_cons, occursIn_cons, occursIn_cons, occursIn_cons]
  rw [isPrefixOf_cons_of_ne_m _ _ (by decide), isPrefixOf_cons_of_ne_m _ _ (by decide),
    isPrefixOf_cons_of_ne_m _ _ (by decide), isPrefixOf_cons_of_ne_m _ _ (by decide),
    isPrefixOf_cons_of_ne_m _ _ (by decide), isPrefixOf_cons_of_ne_m _ _ (by decide)]
  simp

lemma strip_ne_stripLeading (s : List Char)
    (h : occursIn modulePat (s.drop 1) = true) :
    stripModuleAux s ≠ stripLeadingModule s := by
  cases hp : modulePat.isPrefixOf s with
  | true =>
      obtain ⟨t, rfl⟩ := (isPrefixOf_eq_true_iff _).mp hp
      rw [stripLeadingModule, hp, if_pos rfl]
      rw [stripModuleAux_module]
      simp only [List.drop_succ_cons, List.drop_zero] at h ⊢
      rw [occursIn_shift] at h
      have := stripModuleAux_length_lt t h
      intro heq
      have := congrArg List.length heq
      simp only [List.length_drop] at this
      simp [modulePat] at this
      omega
  | false =>
      rw [stripLeadingModule, hp, if_neg (by simp)]
      cases s with
      | nil => simp [occursIn_nil] at h
      | cons c cs =>
          simp only [List.drop_succ_cons, List.drop_zero] at h
          have hocc : occursIn modulePat (c :: cs) = true := by
            rw [occursIn_cons, h, Bool.or_true]
          have := stripModuleAux_length_lt _ hocc
          intro heq
          have := congrArg List.length heq
          omega

/-- A prefixed key strips back to the original when the original contains no
occurrence of `"module."`. -/
lemma stripModuleKey_module_append (k : String)
    (h : occursIn modulePat k.data = false) :
    stripModuleKey ("module." ++ k) = k := by
  have hdata : ("module." ++ k).data = 'm' :: 'o' :: 'd' :: 'u' :: 'l' :: 'e' :: '.' :: k.data := by
    rw [String.data_append]
    rfl
  rw [stripModuleKey, hdata, stripModuleAux_module, stripModuleAux_of_not_occurs _ h]

lemma occursIn_module_append (k : String) :
    occursIn modulePat ("module." ++ k).data = true := by
  have hdata : ("module." ++ k).data = 'm' :: 'o' :: 'd' :: 'u' :: 'l' :: 'e' :: '.' :: k.data := by
    rw [String.data_append]
    rfl
  rw [hdata, occursIn_cons, (isPrefixOf_eq_true_iff _).mpr ⟨k.data, rfl⟩, Bool.true_or]

/-! ### Helper lemmas about state dicts -/

lemma lookup_cons_self (l : StateDict) (k : String) (v : Int) :
    (((k, v) :: l).lookup k) = some v := by
  simp [List.lookup]

lemma lookup_cons_ne (l : StateDict) (k a : String) (v : Int) (h : a ≠ k) :
    (((k, v) :: l).lookup a) = l.lookup a := by
  have hb : (a == k) = false := by simp [h]
  simp [List.lookup, hb]

lemma lookup_eq_none_of_not_mem (l : StateDict) (k : String) (h : k ∉ sdKeys l) :
    l.lookup k = none := by
  induction l with
  | nil => rfl
  | cons p rest ih =>
      obtain ⟨a, v⟩ := p
      rw [sdKeys, List.map_cons, List.mem_cons] at h
      push_neg at h
      rw [lookup_cons_ne _ _ _ _ h.1]
      exact ih h.2

lemma sameKeys_self (l : List String) : sameKeys l l = true := by
  rw [sameKeys, Bool.and_self, List.all_eq_true]
  intro x hx
  simpa using hx

lemma sameKeys_eq_false_of_left_not_mem (a b : List String) (k : String)
    (hk : k ∈ a) (hnb : k ∉ b) : sameKeys a b = false := by
  rw [sameKeys, Bool.and_eq_false_iff]
  left
  rw [List.all_eq_false]
  exact ⟨k, hk, by simpa using hnb⟩

/-- Reloading values by name reproduces the original dict, when the fresh
model has the same parameter-name sequence and names do not repeat. -/
lemma map_lookup_of_keys_eq (orig : StateDict) :
    ∀ fresh : StateDict, sdKeys fresh = sdKeys orig → (sdKeys orig).Nodup →
      fresh.map (fun p => (p.1, ((orig.lookup p.1).getD p.2))) = orig := by
  induction orig with
  | nil =>
      intro fresh hkeys _
      cases fresh with
      | nil => rfl
      | cons q ft => simp [sdKeys] at hkeys
  | cons q ot ih =>
      intro fresh hkeys hnd
      obtain ⟨k, v⟩ := q
      cases fresh with
      | nil => simp [sdKeys] at hkeys
      | cons q2 ft =>
          obtain ⟨k2, w⟩ := q2
          simp only [sdKeys, List.map_cons, List.cons.injEq] at hkeys
          obtain ⟨rfl, htail⟩ := hkeys
          simp only [sdKeys, List.map_cons, List.nodup_cons] at hnd
          rw [List.map_cons]
          simp only [lookup_cons_self, Option.getD_some]
          congr 1
          have hstep : ft.map (fun p => (p.1, ((((k2, v) :: ot).lookup p.1).getD p.2))) =
              ft.map (fun p => (p.1, ((ot.lookup p.1).getD p.2))) := by
            apply List.map_congr_left
            intro p hp
            have hmem : p.1 ∈ List.map Prod.fst ot := by
              rw [← htail]
              exact List.mem_map_of_mem Prod.fst hp
            have hne : p.1 ≠ k2 := fun heq => hnd.1 (heq ▸ hmem)
            rw [lookup_cons_ne _ _ _ _ hne]
          rw [hstep]
          exact ih ft htail hnd.2

/-- When the corrected keys are pairwise distinct (and distinct from the
keys of the accumulator), the fallback loop is a plain `map`. -/
lemma foldl_odInsert_eq_map (f : String → String) :
    ∀ (sd : StateDict) (acc : StateDict),
      (sdKeys acc ++ sd.map (fun p => f p.1)).Nodup →
      sd.foldl (fun a p => odInsert a (f p.1) p.2) acc =
        acc ++ sd.map (fun p => (f p.1, p.2)) := by
  intro sd
  induction sd with
  | nil => intro acc _; simp
  | cons q rest ih =>
      intro acc hnd
      obtain ⟨k, v⟩ := q
      rw [List.foldl_cons]
      have hmid : ((f k) :: (sdKeys acc ++ rest.map (fun p => f p.1))).Nodup := by
        rw [← List.nodup_middle]
        simpa using hnd
      rw [List.nodup_cons, List.mem_append] at hmid
      have hnotin : f k ∉ sdKeys acc := fun hmem => hmid.1 (Or.inl hmem)
      have hlook : acc.lookup (f k) = none := lookup_eq_none_of_not_mem _ _ hnotin
      have hstep : odInsert acc (f k) v = acc ++ [(f k, v)] := by
        rw [odInsert, hlook]
        simp
      rw [hstep]
      have hacc2 : (sdKeys (acc ++ [(f k, v)]) ++ rest.map (fun p => f p.1)).Nodup := by
        rw [sdKeys, List.map_append]
        simp only [List.map_cons, List.map_nil]
        rw [List.append_assoc, List.singleton_append, List.nodup_middle]
        rw [List.nodup_cons]
        refine ⟨fun hmem => ?_, by simpa using hmid.2⟩
        rcases List.mem_append.mp hmem with hmem | hmem
        · exact hmid.1 (Or.inl hmem)
        · exact hmid.1 (Or.inr hmem)
      rw [ih (acc ++ [(f k, v)]) hacc2]
      simp

/-! ### Claim theorems -/

/-- C1: saving a model's parameters with `BaseLearner.save` and loading the
same path with `BaseLearner.load` into a freshly constructed model with the
same parameter names succeeds and reproduces numerically identical
parameter values. -/
theorem save_load_roundtrip (pm : PyModel) (fresh : Model) (path : String) (fs : FS)
    (hkeys : sdKeys fresh.params = sdKeys pm.stateDictForSave)
    (hnd : (sdKeys pm.stateDictForSave).Nodup) :
    (BaseLearner.load (some fresh) (some path)
        (BaseLearner.save (some pm) (some path) fs).fs).outcome =
      Except.ok (some ⟨pm.stateDictForSave⟩) := by
  have hfs : (BaseLearner.save (some pm) (some path) fs).fs path = some pm.stateDictForSave := by
    simp [BaseLearner.save]
  have hload : fresh.load_state_dict pm.stateDictForSave =
      some ⟨pm.stateDictForSave⟩ := by
    rw [Model.load_state_dict, hkeys, sameKeys_self, if_pos rfl]
    rw [map_lookup_of_keys_eq pm.stateDictForSave fresh.params hkeys hnd]
  simp [BaseLearner.load, hfs, hload]

/-- Witness for C1 at a concrete model, fresh copy, path and file system. -/
theorem save_load_roundtrip_witness :
    (BaseLearner.load (some ⟨[("conv.weight", 4), ("fc.bias", 9)]⟩) (some "model.pt")
        (BaseLearner.save (some (PyModel.plain ⟨[("conv.weight", 1), ("fc.bias", 2)]⟩))
          (some "model.pt") (fun _ => none)).fs).outcome =
      Except.ok (some ⟨[("conv.weight", 1), ("fc.bias", 2)]⟩) :=
  save_load_roundtrip (PyModel.plain ⟨[("conv.weight", 1), ("fc.bias", 2)]⟩)
    ⟨[("conv.weight", 4), ("fc.bias", 9)]⟩ "model.pt" (fun _ => none)
    (by decide) (by decide)

/-- C3: `BaseLearner.save` and `BaseLearner.load` with a `None` model or a
`None` path are no-ops: no error, no file written, no model change, no log
line. -/
theorem save_load_none_noop (pm : Option PyModel) (m : Option Model) (p : Option String)
    (fs : FS) (hsave : pm = none ∨ p = none) (hload : m = none ∨ p = none) :
    ((BaseLearner.save pm p fs).fs = fs ∧ (BaseLearner.save pm p fs).logs = []) ∧
      ((BaseLearner.load m p fs).outcome = Except.ok m ∧
        (BaseLearner.load m p fs).logs = []) := by
  refine ⟨⟨?_, ?_⟩, ?_, ?_⟩ <;>
    · first
      | (rcases hsave with rfl | rfl
         · cases p <;> rfl
         · cases pm <;> rfl)
      | (rcases hload with rfl | rfl
         · cases p <;> rfl
         · cases m <;> rfl)

/-- Witness for C3 with both arguments `None`. -/
theorem save_load_none_noop_witness :
    ((BaseLearner.save none none (fun _ => none)).fs = (fun _ => none) ∧
        (BaseLearner.save none none (fun _ => none)).logs = []) ∧
      ((BaseLearner.load none none (fun _ => none)).outcome = Except.ok none ∧
        (BaseLearner.load none none (fun _ => none)).logs = []) :=
  save_load_none_noop none none none (fun _ => none) (Or.inl rfl) (Or.inl rfl)

/-- C5: for any modality other than `"rgb"` and `"flow"`, and any phase,
`BaseLearner.get_transform` returns no pipeline. -/
theorem get_transform_unknown_mode_none (image_size : Nat) (mode : String)
    (phase : Option String) (h1 : mode ≠ "rgb") (h2 : mode ≠ "flow") :
    BaseLearner.get_transform image_size mode phase = none := by
  rw [BaseLearner.get_transform]
  simp [h1, h2]

/-- Witness for C5 at the modality `"audio"` in the training phase. -/
theorem get_transform_unknown_mode_none_witness :
    BaseLearner.get_transform 224 "audio" (some "train") = none :=
  get_transform_unknown_mode_none 224 "audio" (some "train") (by decide) (by decide)

/-- C8: after `BaseLearner.__init__`, `use_cuda` is `true` no matter what the
actual availability test would return, and the only later state-changing
operation, `create_logger`, never changes it. -/
theorem use_cuda_always_true (torch_cuda_is_available : Unit → Bool)
    (log_path : Option String) (reg : Registry) :
    (BaseLearner.init torch_cuda_is_available).use_cuda = true ∧
      ((BaseLearner.create_logger (BaseLearner.init torch_cuda_is_available)
          log_path reg).1).use_cuda = true := by
  refine ⟨rfl, ?_⟩
  cases log_path <;> rfl


/-- Clearing a handler list by erasing, one by one, every element of a
snapshot of itself empties it. -/
lemma foldl_erase_all (l : List Handler) :
    ∀ acc : List Handler, (∀ a, acc.count a ≤ l.count a) →
      List.foldl (fun cur h => cur.erase h) acc l = [] := by
  induction l with
  | nil =>
      intro acc h
      apply List.eq_nil_iff_forall_not_mem.mpr
      intro a ha
      have hc := h a
      simp only [List.count_nil, Nat.le_zero] at hc
      exact (List.count_eq_zero.mp hc) ha
  | cons b t ih =>
      intro acc h
      rw [List.foldl_cons]
      apply ih
      intro a
      have hc := h a
      rw [List.count_cons] at hc
      rw [List.count_erase]
      by_cases hab : a = b
      · subst hab
        simp only [BEq.refl, if_true] at hc ⊢
        omega
      · have hb : (b == a) = false := by simp [Ne.symm hab]
        rw [hb] at hc ⊢
        simp at hc ⊢
        omega

lemma removeOldHandlers_self_eq_nil (l : List Handler) : removeOldHandlers l l = [] :=
  foldl_erase_all l l (fun _ => Nat.le_refl _)

/-- C9: `create_logger` is idempotent on the handler registry: already after
one call with a non-`None` path, and after any further call with the same
path, exactly one handler is registered under that path. -/
theorem create_logger_idempotent (st : LearnerState) (p : String) (reg : Registry) :
    ((BaseLearner.create_logger st (some p) reg).2) p =
        [⟨p, 100000000, 200, "[%(asctime)s] %(levelname)s: %(message)s"⟩] ∧
      ((BaseLearner.create_logger (BaseLearner.create_logger st (some p) reg).1 (some p)
          (BaseLearner.create_logger st (some p) reg).2).2) p =
        [⟨p, 100000000, 200, "[%(asctime)s] %(levelname)s: %(message)s"⟩] ∧
      (((BaseLearner.create_logger st (some p) reg).2) p).length = 1 := by
  have h1 : ((BaseLearner.create_logger st (some p) reg).2) p =
      [⟨p, 100000000, 200, "[%(asctime)s] %(levelname)s: %(message)s"⟩] := by
    rw [BaseLearner.create_logger]
    simp only [if_pos rfl]
    rw [removeOldHandlers_self_eq_nil]
    rfl
  refine ⟨h1, ?_, by rw [h1]; rfl⟩
  rw [BaseLearner.create_logger]
  simp only [if_pos rfl]
  rw [h1, removeOldHandlers_self_eq_nil]
  rfl

/-- C4: for modality `"rgb"` or `"flow"`, the training pipeline is exactly the
seven steps color jitter (modality-specific), random resized crop, random
perspective, random horizontal flip, random erasing, the same random erasing
again, and normalization, in this order; for any phase other than
`some "train"` (including `none`) the pipeline is exactly resize then
normalization. -/
theorem get_transform_shape (image_size : Nat) (mode : String) (phase : Option String)
    (hmode : mode = "rgb" ∨ mode = "flow") :
    (phase = some "train" →
      BaseLearner.get_transform image_size mode phase =
        some [(if mode = "rgb" then
                Transform.colorJitterBCSH (3 / 10) (3 / 10) (3 / 10) (-(1 / 10), 1 / 10)
              else Transform.colorJitterBC (3 / 10) (3 / 10)),
              Transform.randomResizedCrop image_size (9 / 10, 1) (3 / 4, 4 / 3),
              Transform.randomPerspective 3 3 3 3,
              Transform.randomHorizontalFlip (1 / 2),
              Transform.randomErasing (1 / 2) (2 / 1000, 8 / 1000) (3 / 10, 33 / 10) "random",
              Transform.randomErasing (1 / 2) (2 / 1000, 8 / 1000) (3 / 10, 33 / 10) "random",
              Transform.normalize (if mode = "rgb" then rgbMean else flowMean)
                (if mode = "rgb" then rgbStd else flowStd)]) ∧
    (phase ≠ some "train" →
      BaseLearner.get_transform image_size mode phase =
        some [Transform.resize image_size,
              Transform.normalize (if mode = "rgb" then rgbMean else flowMean)
                (if mode = "rgb" then rgbStd else flowStd)]) := by
  rcases hmode with rfl | rfl <;>
    exact ⟨fun hp => by subst hp; rfl, fun hp => by simp [BaseLearner.get_transform, hp]⟩

/-- Witness for C4: the rgb training pipeline and the flow evaluation
pipeline at image size 224. -/
theorem get_transform_shape_witness :
    BaseLearner.get_transform 224 "rgb" (some "train") =
      some [Transform.colorJitterBCSH (3 / 10) (3 / 10) (3 / 10) (-(1 / 10), 1 / 10),
            Transform.randomResizedCrop 224 (9 / 10, 1) (3 / 4, 4 / 3),
            Transform.randomPerspective 3 3 3 3,
            Transform.randomHorizontalFlip (1 / 2),
            Transform.randomErasing (1 / 2) (2 / 1000, 8 / 1000) (3 / 10, 33 / 10) "random",
            Transform.randomErasing (1 / 2) (2 / 1000, 8 / 1000) (3 / 10, 33 / 10) "random",
            Transform.normalize rgbMean rgbStd] ∧
    BaseLearner.get_transform 224 "flow" none =
      some [Transform.resize 224, Transform.normalize flowMean flowStd] := by
  constructor
  · have h := (get_transform_shape 224 "rgb" (some "train") (Or.inl rfl)).1 rfl
    simpa using h
  · have h := (get_transform_shape 224 "flow" none (Or.inr rfl)).2 (by simp)
    simpa using h

/-- C6: every `"rgb"` pipeline ends with normalization by the fixed
three-channel constants and every `"flow"` pipeline with the fixed
two-channel constants, and the two constant pairs differ. -/
theorem get_transform_normalization_constants (image_size : Nat) (phase : Option String) :
    (∃ pre, BaseLearner.get_transform image_size "rgb" phase =
        some (pre ++ [Transform.normalize rgbMean rgbStd])) ∧
      (∃ pre, BaseLearner.get_transform image_size "flow" phase =
        some (pre ++ [Transform.normalize flowMean flowStd])) ∧
      rgbMean.length = 3 ∧ rgbStd.length = 3 ∧ flowMean.length = 2 ∧ flowStd.length = 2 ∧
      (rgbMean, rgbStd) ≠ (flowMean, flowStd) := by
  have hne : (rgbMean, rgbStd) ≠ (flowMean, flowStd) := by
    intro h
    have h1 := congrArg (fun q => q.1.length) h
    simp [rgbMean, flowMean] at h1
  refine ⟨?_, ?_, rfl, rfl, rfl, rfl, hne⟩
  · by_cases hp : phase = some "train"
    · exact ⟨[Transform.colorJitterBCSH (3 / 10) (3 / 10) (3 / 10) (-(1 / 10), 1 / 10),
        Transform.randomResizedCrop image_size (9 / 10, 1) (3 / 4, 4 / 3),
        Transform.randomPerspective 3 3 3 3,
        Transform.randomHorizontalFlip (1 / 2),
        Transform.randomErasing (1 / 2) (2 / 1000, 8 / 1000) (3 / 10, 33 / 10) "random",
        Transform.randomErasing (1 / 2) (2 / 1000, 8 / 1000) (3 / 10, 33 / 10) "random"],
        by subst hp; rfl⟩
    · exact ⟨[Transform.resize image_size], by simp [BaseLearner.get_transform, hp]⟩
  · by_cases hp : phase = some "train"
    · exact ⟨[Transform.colorJitterBC (3 / 10) (3 / 10),
        Transform.randomResizedCrop image_size (9 / 10, 1) (3 / 4, 4 / 3),
        Transform.randomPerspective 3 3 3 3,
        Transform.randomHorizontalFlip (1 / 2),
        Transform.randomErasing (1 / 2) (2 / 1000, 8 / 1000) (3 / 10, 33 / 10) "random",
        Transform.randomErasing (1 / 2) (2 / 1000, 8 / 1000) (3 / 10, 33 / 10) "random"],
        by subst hp; rfl⟩
    · exact ⟨[Transform.resize image_size], by simp [BaseLearner.get_transform, hp]⟩

/-- Counterexample for C2 as stated: a checkpoint whose single key carries the
`"module."` prefix (the unprefixed original key contains `"module."` in a
non-leading position). The fallback removes every occurrence, the retry key
no longer matches the model, and the load raises instead of succeeding. -/
theorem load_module_fallback_cex :
    modulePat.isPrefixOf "module.a.module.b".data = true ∧
      (BaseLearner.load (some ⟨[("a.module.b", 0)]⟩) (some "ckpt")
          (fun q => if q = "ckpt" then some [("module.a.module.b", 5)] else none)).outcome =
        Except.error () := by
  exact ⟨rfl, rfl⟩

/-- C2 (amended): loading a checkpoint whose keys are the model's keys with
the `"module."` prefix attached succeeds via the fallback (the direct load
fails, the corrected retry succeeds) and yields the unprefixed original
values — provided the checkpoint is non-empty and no unprefixed key contains
`"module."` anywhere. -/
theorem load_module_fallback_amended (m : Model) (orig : StateDict) (p : String) (fs : FS)
    (hfs : fs p = some (orig.map (fun q => ("module." ++ q.1, q.2))))
    (hkeys : sdKeys m.params = sdKeys orig)
    (hnd : (sdKeys orig).Nodup)
    (hne : orig ≠ [])
    (hno : ∀ k ∈ sdKeys orig, occursIn modulePat k.data = false) :
    m.load_state_dict (orig.map (fun q => ("module." ++ q.1, q.2))) = none ∧
      (BaseLearner.load (some m) (some p) fs).outcome = Except.ok (some ⟨orig⟩) ∧
      (BaseLearner.load (some m) (some p) fs).logs.length = 3 := by
  obtain ⟨q0, orig', rfl⟩ : ∃ q0 orig', orig = q0 :: orig' := by
    cases orig with
    | nil => exact absurd rfl hne
    | cons q0 orig' => exact ⟨q0, orig', rfl⟩
  set orig := q0 :: orig' with horig
  have hk0 : q0.1 ∈ sdKeys orig := by simp [sdKeys, horig]
  have hdirect : m.load_state_dict (orig.map (fun q => ("module." ++ q.1, q.2))) = none := by
    rw [Model.load_state_dict]
    have hnotin : q0.1 ∉ sdKeys (orig.map (fun q => ("module." ++ q.1, q.2))) := by
      rw [sdKeys, List.map_map]
      intro hmem
      obtain ⟨q, _, heq⟩ := List.mem_map.mp hmem
      have : occursIn modulePat q0.1.data = true := by
        rw [show q0.1 = "module." ++ q.1 from heq.symm]
        exact occursIn_module_append q.1
      rw [hno q0.1 hk0] at this
      exact Bool.false_ne_true this
    rw [sameKeys_eq_false_of_left_not_mem _ _ q0.1 (hkeys ▸ hk0) hnotin]
    rfl
  have hstripped : (orig.map (fun q => ("module." ++ q.1, q.2))).map
      (fun q => stripModuleKey q.1) = sdKeys orig := by
    rw [List.map_map, sdKeys]
    apply List.map_congr_left
    intro q hq
    exact stripModuleKey_module_append q.1 (hno q.1 (List.mem_map_of_mem Prod.fst hq))
  have hnew : newStateDict (orig.map (fun q => ("module." ++ q.1, q.2))) = orig := by
    rw [newStateDict, foldl_odInsert_eq_map (fun k => stripModuleKey k) _ []
      (by rw [show ((orig.map (fun q => ("module." ++ q.1, q.2))).map
            (fun q => stripModuleKey q.1)) = sdKeys orig from hstripped]
          simpa using hnd)]
    rw [List.nil_append, List.map_map]
    have : ∀ q ∈ orig, ((fun q => (stripModuleKey q.1, q.2)) ∘
        (fun q => ("module." ++ q.1, q.2))) q = q := by
      intro q hq
      simp only [Function.comp_apply]
      rw [stripModuleKey_module_append q.1 (hno q.1 (List.mem_map_of_mem Prod.fst hq))]
    rw [List.map_congr_left this]
    exact List.map_id orig
  have hretry : m.load_state_dict orig = some ⟨orig⟩ := by
    rw [Model.load_state_dict, hkeys, sameKeys_self, if_pos rfl]
    rw [map_lookup_of_keys_eq orig m.params hkeys hnd]
  refine ⟨hdirect, ?_, ?_⟩ <;>
    simp [BaseLearner.load, hfs, hdirect, hnew, hretry]

/-- Witness for C2 (amended) at a one-parameter model. -/
theorem load_module_fallback_amended_witness :
    (Model.mk [("conv.w", 7)]).load_state_dict [("module.conv.w", 3)] = none ∧
      (BaseLearner.load (some ⟨[("conv.w", 7)]⟩) (some "ck")
          (fun q => if q = "ck" then some [("module.conv.w", 3)] else none)).outcome =
        Except.ok (some ⟨[("conv.w", 3)]⟩) ∧
      (BaseLearner.load (some ⟨[("conv.w", 7)]⟩) (some "ck")
          (fun q => if q = "ck" then some [("module.conv.w", 3)] else none)).logs.length = 3 :=
  load_module_fallback_amended ⟨[("conv.w", 7)]⟩ [("conv.w", 3)] "ck"
    (fun q => if q = "ck" then some [("module.conv.w", 3)] else none)
    (by rfl) (by rfl) (by decide) (by decide) (by decide)

/-- Counterexample for C7 as stated: a concrete load that takes the fallback
path (three `self.log` calls happen, so the two fallback lines were emitted)
during which the number of warning-severity records routed to a configured
logger is zero, not two — the fallback calls `self.log` with its default
level `"i"`. -/
theorem load_fallback_log_severity_cex :
    (BaseLearner.load (some ⟨[("a", 0)]⟩) (some "p")
        (fun q => if q = "p" then some [("b", 1)] else none)).logs.length = 3 ∧
      ((renderLogs (some "log")
          (BaseLearner.load (some ⟨[("a", 0)]⟩) (some "p")
            (fun q => if q = "p" then some [("b", 1)] else none)).logs).countP
          (fun r => r.1 == LogLevel.warning)) = 0 := by
  exact ⟨rfl, rfl⟩

/-- C7 (amended): whenever `BaseLearner.load` falls back to prefix-stripping,
it emits exactly two log lines before retrying — but at informational
severity (the `self.log` calls use the default level `"i"`), not warning. -/
theorem load_fallback_two_info_logs (m : Model) (p : String) (fs : FS) (sd : StateDict)
    (logger : String) (hfs : fs p = some sd) (hfail : m.load_state_dict sd = none) :
    ((BaseLearner.load (some m) (some p) fs).logs).drop 1 =
      [⟨"Weights were from nn.DataParallel...", "i"⟩,
       ⟨"Remove \x27module.\x27 prefix from state_dict keys...", "i"⟩] ∧
      renderLogs (some logger) (((BaseLearner.load (some m) (some p) fs).logs).drop 1) =
        [(LogLevel.info, "Weights were from nn.DataParallel..."),
         (LogLevel.info, "Remove \x27module.\x27 prefix from state_dict keys...")] := by
  have hlogs : (BaseLearner.load (some m) (some p) fs).logs =
      [⟨"Load model weights from " ++ p, "i"⟩,
       ⟨"Weights were from nn.DataParallel...", "i"⟩,
       ⟨"Remove \x27module.\x27 prefix from state_dict keys...", "i"⟩] := by
    rw [BaseLearner.load]
    simp only [hfs, hfail]
    cases m.load_state_dict (newStateDict sd) <;> rfl
  rw [hlogs]
  exact ⟨rfl, rfl⟩

/-- Witness for C7 (amended) at a concrete failing load with logger `"log"`. -/
theorem load_fallback_two_info_logs_witness :
    ((BaseLearner.load (some ⟨[("a", 0)]⟩) (some "p")
        (fun q => if q = "p" then some [("b", 1)] else none)).logs).drop 1 =
      [⟨"Weights were from nn.DataParallel...", "i"⟩,
       ⟨"Remove \x27module.\x27 prefix from state_dict keys...", "i"⟩] ∧
      renderLogs (some "log")
          (((BaseLearner.load (some ⟨[("a", 0)]⟩) (some "p")
            (fun q => if q = "p" then some [("b", 1)] else none)).logs).drop 1) =
        [(LogLevel.info, "Weights were from nn.DataParallel..."),
         (LogLevel.info, "Remove \x27module.\x27 prefix from state_dict keys...")] :=
  load_fallback_two_info_logs ⟨[("a", 0)]⟩ "p"
    (fun q => if q = "p" then some [("b", 1)] else none) [("b", 1)] "log" (by rfl) (by rfl)

/-- If two maps over the same list are equal, the mapped functions agree on
every member. -/
lemma map_eq_map_imp {α β : Type} (l : List α) (f g : α → β)
    (h : l.map f = l.map g) : ∀ x ∈ l, f x = g x := by
  induction l with
  | nil => intro x hx; cases hx
  | cons a t ih =>
      simp only [List.map_cons, List.cons.injEq] at h
      intro x hx
      rcases List.mem_cons.mp hx with rfl | hx
      · exact h.1
      · exact ih h.2 x hx

/-- C10: the fallback of `BaseLearner.load` removes `"module."` from every
position inside each key, so on any key containing `"module."` in a
non-prefix position its result differs from stripping only a leading prefix,
and the corrected key sequences of the whole checkpoint differ as well. -/
theorem fallback_strips_all_occurrences (sd : StateDict) (k : String) (v : Int)
    (hmem : (k, v) ∈ sd) (hocc : occursIn modulePat (k.data.drop 1) = true) :
    stripModuleKey k ≠ ⟨stripLeadingModule k.data⟩ ∧
      sd.map (fun q => stripModuleKey q.1) ≠
        sd.map (fun q => (⟨stripLeadingModule q.1.data⟩ : String)) := by
  have hkey : stripModuleKey k ≠ ⟨stripLeadingModule k.data⟩ := by
    intro h
    exact strip_ne_stripLeading k.data hocc (congrArg String.data h)
  refine ⟨hkey, fun h => ?_⟩
  exact hkey (map_eq_map_imp sd _ _ h (k, v) hmem)

/-- Witness for C10 on the key `"a.module.b"`. -/
theorem fallback_strips_all_occurrences_witness :
    stripModuleKey "a.module.b" ≠ ⟨stripLeadingModule "a.module.b".data⟩ ∧
      [(("a.module.b", 0) : String × Int)].map (fun q => stripModuleKey q.1) ≠
        [(("a.module.b", 0) : String × Int)].map
          (fun q => (⟨stripLeadingModule q.1.data⟩ : String)) :=
  fallback_strips_all_occurrences [("a.module.b", 0)] "a.module.b" 0 (by decide) (by decide)
